import Mathlib

/-!
Verification of the MyAIBotSteve trading bot against its specification.

The Python sources `bot_candle.py` (candle engine) and `bot.py` (legacy tick
engine) are shallowly embedded below.  Monetary amounts, prices and
quantities are modelled as rationals (the sources use Python `Decimal` and
`float`; all arithmetic appearing in the verified claims is exact order
comparison and ring arithmetic, which the rational model reflects
faithfully).  Python `None` is modelled with `Option`, exceptions with
explicit result constructors, and the wall clock is passed in explicitly.
-/

namespace MyAIBot

/-- Truncation of a rational toward zero, the rounding used by Python
`Decimal` floor-division and by `ROUND_DOWN`. -/
def ratTrunc (x : ℚ) : ℤ := if x < 0 then ⌈x⌉ else ⌊x⌋

/-- Rounding of a rational away from zero, Python `Decimal`'s `ROUND_UP`. -/
def ratAway (x : ℚ) : ℤ := if x < 0 then ⌊x⌋ else ⌈x⌉

/-- `round_down_step` from `bot_candle.py` / `bot.py`: floor the quantity to
a multiple of the lot step (`(qty // step) * step`), `0` when the step is
zero. -/
def round_down_step (quantity step : ℚ) : ℚ :=
  if step = 0 then 0 else (ratTrunc (quantity / step) : ℚ) * step

/-- Order side. -/
inductive Side where
  | buy
  | sell
deriving DecidableEq, Repr

/-- `fmt_price_side` from `bot_candle.py`: round a price to a multiple of
`tick`, upward (away from zero) for a buy and downward (toward zero) for a
sell; prices with a non-positive tick are passed through. -/
def fmt_price_side (val tick : ℚ) (side : Side) : ℚ :=
  if tick ≤ 0 then val
  else
    match side with
    | Side.buy => (ratAway (val / tick) : ℚ) * tick
    | Side.sell => (ratTrunc (val / tick) : ℚ) * tick

/-! ## Risk controller: circuit breaker (`check_errors`) -/

/-- The pruning step of `check_errors` (identical in `bot.py` line 441 and
`bot_candle.py` line 674): keep exactly the timestamps `t` with
`now - t < window`. -/
def check_errors_prune (now window : ℚ) (ts : List ℚ) : List ℚ :=
  ts.filter (fun t => now - t < window)

/-- The fatal-stop decision of `check_errors`: after pruning, `sys.exit(1)`
fires iff the remaining count is `≥ limit`. -/
def check_errors_fatal (now window : ℚ) (limit : ℕ) (ts : List ℚ) : Bool :=
  limit ≤ (check_errors_prune now window ts).length

/-! ## Risk controller: daily reset (`BotState.check_daily_reset`) -/

/-- The fields of the engine state touched by `check_daily_reset`
(`bot_candle.py` lines 233-241). -/
structure DailyState where
  daily_loss_quote : ℚ
  trade_count : ℕ
  day_key : String
deriving DecidableEq, Repr

/-- `check_daily_reset`: if the operator-timezone date string differs from
the stored `day_key`, zero both daily counters, advance the key and persist
(`save`); otherwise do nothing.  The returned boolean records whether
`save` was called. -/
def check_daily_reset (now_date : String) (st : DailyState) :
    DailyState × Bool :=
  if now_date ≠ st.day_key then
    (⟨0, 0, now_date⟩, true)
  else
    (st, false)

/-! ## Order outcomes -/

/-- An exchange order as consumed by the engine: the fields of the order
dict the code reads (`status`, `executedQty`, `cummulativeQuoteQty`,
`fills` as (qty, price) pairs). -/
structure Order where
  status : String
  executedQty : ℚ
  cummulativeQuoteQty : ℚ
  fills : List (ℚ × ℚ)
deriving DecidableEq, Repr

/-- The clean-timeout sentinel dict
`... status : CANCELED_TIMEOUT_NOFILL ...` returned by both executors of
`bot_candle.py` on a zero-fill timeout. -/
def nofillSentinel : Order :=
  ⟨"CANCELED_TIMEOUT_NOFILL", 0, 0, []⟩

/-! ## Resilient call wrapper (`api_call`) -/

/-- Outcome of one underlying call attempt: a success value, a Binance
`ClientError` carrying an optional HTTP status and an API error code, or
any other exception. -/
inductive CallOutcome where
  | ok (v : ℕ)
  | clientError (status : Option ℕ) (code : ℤ)
  | otherError (tag : ℕ)
deriving DecidableEq, Repr

/-- The fail-fast test of `api_call` (`bot_candle.py` lines 256-265,
`bot.py` line 188): a `ClientError` whose HTTP status is present and in
[400, 500). -/
def is4xxClientError : CallOutcome → Bool
  | CallOutcome.clientError (some s) _ => decide (400 ≤ s ∧ s < 500)
  | _ => false

/-- A transient failure for the wrapper: neither a success nor a 4xx
`ClientError`. -/
def isTransientFailure : CallOutcome → Bool
  | CallOutcome.ok _ => false
  | e => !is4xxClientError e

/-- Result of `api_call`: the returned value, or the exception re-raised
to the caller. -/
inductive CallResult where
  | ok (v : ℕ)
  | raised (e : CallOutcome)
deriving DecidableEq, Repr

/-- The wrapper's backoff schedule, `delays = [1, 2, 4]`. -/
def api_call_delays : List ℕ := [1, 2, 4]

/-- The retry loop of `api_call` (`for i in range(retries)` with
`retries = 3`): attempt `i` consults `outcomes i`; a success returns it, a
4xx `ClientError` is raised immediately, any other failure is raised when
the budget is exhausted (`i == retries - 1`) and otherwise sleeps
`delays[i]` and retries.  Returns the result, the number of attempts
performed, and the list of sleeps performed. -/
def api_call_go (outcomes : ℕ → CallOutcome) :
    ℕ → ℕ → CallResult × ℕ × List ℕ
  | _, 0 => (CallResult.raised (CallOutcome.otherError 0), 0, [])
  | i, fuel + 1 =>
    match outcomes i with
    | CallOutcome.ok v => (CallResult.ok v, 1, [])
    | e =>
      if is4xxClientError e then (CallResult.raised e, 1, [])
      else if fuel = 0 then (CallResult.raised e, 1, [])
      else
        let r := api_call_go outcomes (i + 1) fuel
        (r.1, r.2.1 + 1, api_call_delays.getD i 0 :: r.2.2)

/-- `api_call` with its fixed budget `retries = 3`. -/
def api_call (outcomes : ℕ → CallOutcome) : CallResult × ℕ × List ℕ :=
  api_call_go outcomes 0 3

/-! ## Walk-the-limit execution (`place_limit_order_walked`) -/

/-- Attempt `i`'s offset in `place_limit_order_walked`
(`bot_candle.py` lines 1082-1087, linear mode): `progress = i / (max - 1)`
when more than one attempt is configured, else `0`; the offset
interpolates from `startPct` toward `endPct`.  `i` is 0-based as in the
Python loop. -/
def walk_offset (maxAttempts : ℕ) (startPct endPct : ℚ) (i : ℕ) : ℚ :=
  let progress : ℚ :=
    if 1 < maxAttempts then (i : ℚ) / ((maxAttempts : ℚ) - 1) else 0
  startPct + (endPct - startPct) * progress

/-- Whether one walk attempt's result ends the walk (`bot_candle.py`
lines 1131-1150): a returned dict that is not the clean-timeout sentinel
and is either an explicit rejection or carries nonzero executed quantity.
A `None` result (hard step failure) and every other dict let the loop
advance to the next attempt. -/
def walkTerminal : Option Order → Bool
  | none => false
  | some o =>
    if o.status = "CANCELED_TIMEOUT_NOFILL" then false
    else if o.status = "REJECTED" then true
    else decide (0 < o.executedQty)

/-- The attempt loop of `place_limit_order_walked` over the realized
per-attempt results (one list entry per attempt that the time budget and
`WALK_MAX_ATTEMPTS` allow; the list ending models exhausting either
bound): the sentinel result advances, `REJECTED` returns `None` (hard
failure), nonzero execution returns the order, anything else advances;
running out of attempts returns the clean no-fill sentinel. -/
def walk_loop : List (Option Order) → Option Order
  | [] => some nofillSentinel
  | r :: rest =>
    match r with
    | none => walk_loop rest
    | some o =>
      if o.status = "CANCELED_TIMEOUT_NOFILL" then walk_loop rest
      else if o.status = "REJECTED" then none
      else if 0 < o.executedQty then some o
      else walk_loop rest

/-- Number of attempts the walk actually issues for a given realized
result list. -/
def walk_attempts_used : List (Option Order) → ℕ
  | [] => 0
  | r :: rest => if walkTerminal r then 1 else 1 + walk_attempts_used rest

/-! ## Order quantization and pricing -/

/-- The quantity quantization shared by both executors
(`bot_candle.py` lines 1062-1065 and 1158-1161): floor to a multiple of
the lot step, passing the raw quantity through when the step is zero. -/
def quantize_order_qty (quantity step : ℚ) : ℚ :=
  if step = 0 then quantity else (ratTrunc (quantity / step) : ℚ) * step

/-- The zero-quantity guard of `place_limit_order_with_timeout`
(`bot_candle.py` lines 1163-1165, `bot.py` lines 567-569): when the
quantized quantity is `≤ 0` the executor returns `None` (hard failure)
before any price computation or submission; otherwise it proceeds with
the quantized quantity. -/
def timeout_guarded_qty (quantity step : ℚ) : Option ℚ :=
  if quantize_order_qty quantity step ≤ 0 then none
  else some (quantize_order_qty quantity step)

/-- `place_limit_order_walked` as a function of the order intent and the
realized per-attempt results: it quantizes the quantity exactly like the
fixed-offset executor but has no positivity guard — every issued attempt
submits the quantized quantity, and the walk outcome is the attempt
loop's.  (`bot_candle.py` lines 1059-1153.) -/
def place_limit_order_walked (quantity step : ℚ)
    (attempts : List (Option Order)) : ℚ × Option Order :=
  (quantize_order_qty quantity step, walk_loop attempts)

/-- The percent-price clamp of `place_limit_order_with_timeout`
(`bot_candle.py` lines 1186-1191, `bot.py` lines 590-595): raise to the
min cap, then lower to the max cap; a cap that is absent (`None`) or zero
is skipped (Python truthiness of `Decimal`). -/
def clamp_price (p : ℚ) (capMin capMax : Option ℚ) : ℚ :=
  let p1 := match capMin with
    | some m => if m ≠ 0 ∧ p < m then m else p
    | none => p
  match capMax with
  | some M => if M ≠ 0 ∧ M < p1 then M else p1
  | none => p1

/-- The full price pipeline of `place_limit_order_with_timeout`
(`bot_candle.py` lines 1176-1195): offset from the reference price
(buy down, sell up), clamp into the percent-price band, then round to the
tick side-aware (buy up, sell down). -/
def timeout_final_price (side : Side) (est offset : ℚ)
    (capMin capMax : Option ℚ) (tick : ℚ) : ℚ :=
  let p0 := match side with
    | Side.buy => est * (1 - offset)
    | Side.sell => est * (1 + offset)
  fmt_price_side (clamp_price p0 capMin capMax) tick side

/-- The target price of one walk attempt (`bot_candle.py` lines
1091-1106): offset from the reference mid, cap the spread crossing, then
apply the percent-price cap on the aggressive side (Python truthiness:
an absent or zero cap is skipped). -/
def walk_target_price (side : Side) (mid offset crossCap : ℚ)
    (capMin capMax : Option ℚ) : ℚ :=
  match side with
  | Side.buy =>
    let t0 := mid * (1 - offset)
    let maxLimit := mid * (1 + crossCap)
    let t1 := if maxLimit < t0 then maxLimit else t0
    match capMax with
    | some M => if M ≠ 0 ∧ M < t1 then M else t1
    | none => t1
  | Side.sell =>
    let t0 := mid * (1 + offset)
    let minLimit := mid * (1 - crossCap)
    let t1 := if t0 < minLimit then minLimit else t0
    match capMin with
    | some m => if m ≠ 0 ∧ t1 < m then m else t1
    | none => t1

/-- The submitted price of one walk attempt: the target price rounded to
the tick side-aware (`bot_candle.py` line 1110). -/
def walk_final_price (side : Side) (mid offset crossCap : ℚ)
    (capMin capMax : Option ℚ) (tick : ℚ) : ℚ :=
  fmt_price_side (walk_target_price side mid offset crossCap capMin capMax)
    tick side

/-! ## Position state machine -/

/-- The two position values (`HOLDING_QUOTE` / `HOLDING_ETH`, the latter
called `HOLDING_BASE` in the spec). -/
inductive Position where
  | holdingQuote
  | holdingEth
deriving DecidableEq, Repr

/-- The persisted engine-state fields the fill handlers touch. -/
structure EngineState where
  position : Position
  entry_price : ℚ
  last_sell_price : ℚ
  pot_quote : ℚ
  pot_eth : ℚ
  daily_loss_quote : ℚ
  trade_count : ℕ
  last_trade_time : ℚ
deriving DecidableEq, Repr

/-- `get_avg_exec_price` (`bot_candle.py` lines 658-668): the
notional-weighted average price of a fill list, `0` for an empty list or
zero total quantity. -/
def get_avg_exec_price (fills : List (ℚ × ℚ)) : ℚ :=
  if fills = [] then 0
  else
    let total_qty := (fills.map Prod.fst).sum
    let total_cost := (fills.map (fun f => f.1 * f.2)).sum
    if total_qty = 0 then 0 else total_cost / total_qty

/-- The average-fill-price fallback used by both fill handlers
(`bot_candle.py` lines 1679-1680 and 1753-1754): the fill-weighted
average, else cumulative quote over executed quantity, else the current
price. -/
def fill_avg_price (o : Order) (current_price : ℚ) : ℚ :=
  let avg0 := get_avg_exec_price o.fills
  if avg0 = 0 then
    if o.executedQty ≠ 0 then o.cummulativeQuoteQty / o.executedQty
    else current_price
  else avg0

/-- `normalize_pots` (`bot_candle.py` lines 688-709): zero out dust below
one lot step (base pot) or below 0.01 (quote pot) and clamp negatives to
zero. -/
def normalize_pots (st : EngineState) (step : ℚ) : EngineState :=
  let e0 := st.pot_eth
  let e1 := if |e0| < step ∧ e0 ≠ 0 then 0 else e0
  let e2 := if e1 < 0 then 0 else e1
  let q0 := st.pot_quote
  let q1 := if |q0| < 1/100 ∧ q0 ≠ 0 then 0 else q0
  let q2 := if q1 < 0 then 0 else q1
  { st with pot_eth := e2, pot_quote := q2 }

/-- The pot movement of the buy fill handler (`bot_candle.py` lines
1682-1684): subtract the executed quote value (clamped at zero) and add
the executed base quantity. -/
def buy_pot_update (st : EngineState) (cumm exec : ℚ) : EngineState :=
  let pq := st.pot_quote - cumm
  { st with pot_quote := if pq < 0 then 0 else pq,
            pot_eth := st.pot_eth + exec }

/-- The buy fill handler of the candle main loop (`bot_candle.py` lines
1674-1693): update and normalize the pots, then flip
`HOLDING_QUOTE → HOLDING_ETH` and record the entry price exactly when
the executed quote value reaches `MIN_FILL_QUOTE` and the executed
quantity reaches one lot step; stamp the trade time in both cases. -/
def apply_buy_fill (st : EngineState) (o : Order)
    (current_price step min_fill_quote now : ℚ) : EngineState :=
  let avg := fill_avg_price o current_price
  let st2 := normalize_pots
    (buy_pot_update st o.cummulativeQuoteQty o.executedQty) step
  let st3 :=
    if min_fill_quote ≤ o.cummulativeQuoteQty ∧ step ≤ o.executedQty then
      { st2 with entry_price := avg, position := Position.holdingEth }
    else st2
  { st3 with last_trade_time := now }

/-- The bookkeeping of the sell fill handler before the flip decision
(`bot_candle.py` lines 1750-1762): realized PnL against the entry price
accrues into the daily loss when negative; the base pot shrinks by the
executed quantity, the quote pot grows by the executed quote value, and
the last sell price becomes the average fill price. -/
def sell_pot_update (st : EngineState) (o : Order) (current_price : ℚ) :
    EngineState :=
  let avg := fill_avg_price o current_price
  let pnl := (avg - st.entry_price) * o.executedQty
  { st with
      daily_loss_quote :=
        if pnl < 0 then st.daily_loss_quote + |pnl|
        else st.daily_loss_quote,
      pot_eth := st.pot_eth - o.executedQty,
      pot_quote := st.pot_quote + o.cummulativeQuoteQty,
      last_sell_price := avg }

/-- The dust test of the sell flip rule (`bot_candle.py` line 1764): the
residual base pot is zero or worth less than `min_notional` at the
execution mid price. -/
def sell_residual_is_dust (pot_eth exec_mid min_notional : ℚ) : Prop :=
  pot_eth = 0 ∨ pot_eth * exec_mid < min_notional

instance (pot_eth exec_mid min_notional : ℚ) :
    Decidable (sell_residual_is_dust pot_eth exec_mid min_notional) := by
  unfold sell_residual_is_dust
  infer_instance

/-- The sell fill handler of the candle main loop (`bot_candle.py` lines
1749-1774): update and normalize the pots, then flip
`HOLDING_ETH → HOLDING_QUOTE` and count the trade exactly when the
executed quote value reaches `MIN_FILL_QUOTE` and the residual base pot
is dust; stamp the trade time in both cases. -/
def apply_sell_fill (st : EngineState) (o : Order)
    (current_price exec_mid step min_notional min_fill_quote now : ℚ) :
    EngineState :=
  let st2 := normalize_pots (sell_pot_update st o current_price) step
  let st3 :=
    if min_fill_quote ≤ o.cummulativeQuoteQty ∧
        sell_residual_is_dust st2.pot_eth exec_mid min_notional then
      { st2 with position := Position.holdingQuote,
                 trade_count := st2.trade_count + 1 }
    else st2
  { st3 with last_trade_time := now }

/-! ## Timeout classification -/

/-- The timeout path of `bot.py`'s `place_limit_order_with_timeout`
(lines 653-667): after cancelling the timed-out order, a nonzero executed
quantity returns the final order dict, a zero executed quantity returns
`None`; a failing cancel also returns `None`. -/
def legacy_timeout_result (cancel_ok : Bool) (final : Order) :
    Option Order :=
  if cancel_ok then
    if 0 < final.executedQty then some final else none
  else none

/-- The timeout path of `bot_candle.py`'s
`place_limit_order_with_timeout` (lines 1248-1265): identical except that
a zero-fill cancel returns the clean-timeout sentinel instead of
`None`. -/
def candle_timeout_result (cancel_ok : Bool) (final : Order) :
    Option Order :=
  if cancel_ok then
    if 0 < final.executedQty then some final else some nofillSentinel
  else none

/-- `execute_limit`'s outcome filter (`bot_candle.py` lines 308-344): the
clean-timeout sentinel passes through, `None`, rejections and
zero-execution dicts are hard failures (`None`), executed dicts pass. -/
def execute_limit_classify (r : Option Order) : Option Order :=
  match r with
  | none => none
  | some o =>
    if o.status = "CANCELED_TIMEOUT_NOFILL" then some o
    else if o.status = "REJECTED" then none
    else if 0 < o.executedQty then some o
    else none

/-- Whether `bot.py`'s main loop appends to the error window for a given
executor outcome (lines 1006-1008 and 1102-1104): exactly when the
outcome is `None`. -/
def legacy_appends_error (r : Option Order) : Bool := r.isNone

/-- Whether `bot_candle.py`'s sell branch appends to the error window for
a given `execute_limit` outcome (lines 1738-1747): the clean-timeout
sentinel is skipped without error; `None` appends. -/
def candle_sell_appends_error (r : Option Order) : Bool :=
  match r with
  | none => true
  | some _ => false

/-! ## Reserve watcher -/

/-- The reserve-watcher fields touched after a triggered sell. -/
structure ReserveState where
  reserve_high_watermark_quote : ℚ
  reserve_last_action_ts : ℚ
deriving DecidableEq, Repr

/-- Outcome of the reserve sell's `execute_limit` call. -/
inductive ReserveSellOutcome where
  | cleanTimeout
  | executed (cummQuote execQty : ℚ)
  | hardFail
deriving DecidableEq, Repr

/-- The tail of `reserve_watcher` after a triggered reserve sell
(`bot_candle.py` lines 924-951): a clean timeout sets only the action
cooldown timestamp; an executed sell sets the cooldown and resets the
high watermark to zero; a hard failure (`None`) sets only the
cooldown. -/
def reserve_after_sell_attempt (st : ReserveState) (now : ℚ) :
    ReserveSellOutcome → ReserveState
  | ReserveSellOutcome.cleanTimeout =>
      { st with reserve_last_action_ts := now }
  | ReserveSellOutcome.executed _ _ =>
      { reserve_high_watermark_quote := 0, reserve_last_action_ts := now }
  | ReserveSellOutcome.hardFail =>
      { st with reserve_last_action_ts := now }

/-! ## Trend gate and the candle buy cycle -/

/-- The trend/reversal configuration consumed by
`is_reversal_confirmed`. -/
structure TrendConfig where
  trend_mode : String
  reversal_mode : String
  reversal_samples : ℕ
  trend_min_samples : ℕ
  min_trend_spread_pct : ℚ
deriving DecidableEq, Repr

/-- Strictly-increasing check over a sample list, the
`all(subset[i] < subset[i+1])` of the BOUNCE gate. -/
def samples_rising : List ℚ → Bool
  | [] => true
  | [_] => true
  | a :: b :: rest => if a < b then samples_rising (b :: rest) else false

/-- `is_reversal_confirmed` (`bot_candle.py` lines 742-789): warmup check
first, then the STRICT / CROSSUP / BOUNCE3 gates, returning the decision
and its reason string. -/
def is_reversal_confirmed (cfg : TrendConfig) (price_history : List ℚ)
    (current_price current_sma prev_price prev_sma : ℚ) :
    Bool × String :=
  if price_history = [] ∨ price_history.length < cfg.trend_min_samples then
    (false, "WARMUP")
  else if cfg.trend_mode = "STRICT" then
    if current_sma * (1 + cfg.min_trend_spread_pct) < current_price then
      (true, "STRICT_OK")
    else (false, "STRICT_BLOCKED")
  else if cfg.trend_mode = "REVERSAL" then
    if cfg.reversal_mode = "CROSSUP" then
      if prev_price ≤ prev_sma ∧
          current_sma * (1 + cfg.min_trend_spread_pct) < current_price then
        (true, "REVERSAL_CROSSUP_OK")
      else (false, "REVERSAL_CROSSUP_BLOCKED")
    else if cfg.reversal_mode = "BOUNCE3" then
      if price_history.length < cfg.reversal_samples then
        (false, "WARMUP_BOUNCE")
      else if samples_rising
          (price_history.drop
            (price_history.length - cfg.reversal_samples)) then
        (true, "REVERSAL_BOUNCE3_OK")
      else (false, "REVERSAL_BOUNCE3_BLOCKED")
    else (false, "UNKNOWN_MODE")
  else (false, "UNKNOWN_MODE")

/-- `safe_execution_checks` (`bot_candle.py` lines 711-725): the notional
at the execution mid must reach `min_notional` and 95 % of the target
notional. -/
def safe_execution_checks
    (quantity mid min_notional target_notional : ℚ) : Bool :=
  if quantity * mid < min_notional then false
  else if quantity * mid < target_notional * (95/100) then false
  else true

/-- The buy-side configuration of the candle main loop. -/
structure BuyConfig where
  dip_anchor_mode : String
  dip_blend_sma_weight : ℚ
  buy_drop_pct : ℚ
  max_under_sma_pct : ℚ
  trend : TrendConfig
deriving DecidableEq, Repr

/-- One cycle's inputs to the candle buy logic. -/
structure BuyCycle where
  pot_quote : ℚ
  last_sell_price : ℚ
  price_history : List ℚ
  current_price : ℚ
  current_sma : ℚ
  prev_price : ℚ
  prev_sma : ℚ
  trend_block_until : ℚ
  now : ℚ
  bid : ℚ
  exec_mid : ℚ
  step : ℚ
  min_notional : ℚ
  target_notional : ℚ
deriving DecidableEq, Repr

/-- The falling-knife condition of the candle buy branch
(`bot_candle.py` lines 1609-1618): only evaluated once the trend window
is warm, and true when the price sits more than `MAX_UNDER_SMA_PCT`
below the SMA. -/
def is_falling_knife (cfg : BuyConfig) (c : BuyCycle) : Prop :=
  cfg.trend.trend_min_samples ≤ c.price_history.length ∧
  c.current_price < c.current_sma * (1 - cfg.max_under_sma_pct)

instance (cfg : BuyConfig) (c : BuyCycle) :
    Decidable (is_falling_knife cfg c) := by
  unfold is_falling_knife
  infer_instance

/-- Whether the `HOLDING_QUOTE` branch of the candle main loop submits a
buy order this cycle (`bot_candle.py` lines 1603-1667): anchor selection
(last sell price, SMA, or blend once warm), the dip trigger, then in
order the falling-knife guard, the trend-block cooldown, the warmup
check, the reversal gate, the positive-quantity check, the min-notional
fatal check and `safe_execution_checks`; `true` means `execute_limit` is
reached. -/
def candle_buy_order_placed (cfg : BuyConfig) (c : BuyCycle) : Bool :=
  let trend_ready := cfg.trend.trend_min_samples ≤ c.price_history.length
  let anchor0 :=
    if c.last_sell_price ≤ 0 then c.current_price else c.last_sell_price
  let anchor :=
    if trend_ready then
      if cfg.dip_anchor_mode = "SMA_ONLY" then c.current_sma
      else if cfg.dip_anchor_mode = "BLEND" then
        c.current_sma * cfg.dip_blend_sma_weight +
          anchor0 * (1 - cfg.dip_blend_sma_weight)
      else anchor0
    else anchor0
  let target := anchor * (1 - cfg.buy_drop_pct)
  if c.current_price ≤ target then
    if is_falling_knife cfg c then false
    else if c.now < c.trend_block_until then false
    else if ¬ trend_ready then false
    else if ¬ (is_reversal_confirmed cfg.trend c.price_history
        c.current_price c.current_sma c.prev_price c.prev_sma).1 then false
    else
      let qty := round_down_step
        (c.pot_quote / c.current_price * (99/100)) c.step
      if qty ≤ 0 then false
      else if qty * (min c.bid c.current_price) < c.min_notional then false
      else if ¬ safe_execution_checks qty c.exec_mid c.min_notional
          c.target_notional then false
      else true
  else false

end MyAIBot

namespace MyAIBot

/-- Flooring a rational in `[0, 1)` toward zero gives `0`. -/
theorem ratTrunc_eq_zero_of_lt_one (x : ℚ) (h0 : 0 ≤ x) (h1 : x < 1) :
    ratTrunc x = 0 := by
  unfold ratTrunc
  rw [if_neg (by linarith)]
  exact Int.floor_eq_zero_iff.mpr ⟨h0, h1⟩

/-- Side-aware tick rounding for a buy: the result is a tick multiple at
or above the input and less than one tick above it. -/
theorem fmt_price_side_buy_bounds (p tick : ℚ) (ht : 0 < tick)
    (hp : 0 ≤ p) :
    p ≤ fmt_price_side p tick Side.buy ∧
    fmt_price_side p tick Side.buy < p + tick := by
  have hdiv : 0 ≤ p / tick := div_nonneg hp ht.le
  unfold fmt_price_side ratAway
  rw [if_neg (by linarith)]
  rw [if_neg (by linarith)]
  constructor
  · have h1 : p / tick ≤ (⌈p / tick⌉ : ℚ) := Int.le_ceil _
    calc p = p / tick * tick := by field_simp
      _ ≤ (⌈p / tick⌉ : ℚ) * tick := by
          exact mul_le_mul_of_nonneg_right h1 ht.le
  · have h2 : (⌈p / tick⌉ : ℚ) < p / tick + 1 := Int.ceil_lt_add_one _
    calc (⌈p / tick⌉ : ℚ) * tick < (p / tick + 1) * tick := by
          exact mul_lt_mul_of_pos_right h2 ht
      _ = p + tick := by field_simp

/-- Side-aware tick rounding for a sell: the result is a tick multiple at
or below the input and less than one tick below it. -/
theorem fmt_price_side_sell_bounds (p tick : ℚ) (ht : 0 < tick)
    (hp : 0 ≤ p) :
    p - tick < fmt_price_side p tick Side.sell ∧
    fmt_price_side p tick Side.sell ≤ p := by
  have hdiv : 0 ≤ p / tick := div_nonneg hp ht.le
  unfold fmt_price_side ratTrunc
  rw [if_neg (by linarith)]
  rw [if_neg (by linarith)]
  constructor
  · have h2 : p / tick - 1 < (⌊p / tick⌋ : ℚ) := Int.sub_one_lt_floor _
    calc p - tick = (p / tick - 1) * tick := by field_simp
      _ < (⌊p / tick⌋ : ℚ) * tick := by
          exact mul_lt_mul_of_pos_right h2 ht
  · have h1 : (⌊p / tick⌋ : ℚ) ≤ p / tick := Int.floor_le _
    calc (⌊p / tick⌋ : ℚ) * tick ≤ p / tick * tick := by
          exact mul_le_mul_of_nonneg_right h1 ht.le
      _ = p := by field_simp

/-- The percent-price clamp keeps the pre-rounding price inside the band
whenever both caps are present, positive and ordered. -/
theorem clamp_price_mem (p m M : ℚ) (hm : 0 < m) (hmM : m ≤ M) :
    m ≤ clamp_price p (some m) (some M) ∧
    clamp_price p (some m) (some M) ≤ M := by
  have hm0 : m ≠ 0 := ne_of_gt hm
  have hM0 : M ≠ 0 := ne_of_gt (lt_of_lt_of_le hm hmM)
  simp only [clamp_price, ne_eq, hm0, hM0, not_false_eq_true, true_and]
  split_ifs <;> constructor <;> linarith

/-- The walk's buy target price stays inside the band when the passive
and maximally-crossed prices both sit at or above the lower cap. -/
theorem walk_target_price_buy_mem (mid offset crossCap m M : ℚ)
    (hm : 0 < m) (hmM : m ≤ M)
    (h1 : m ≤ mid * (1 - offset)) (h2 : m ≤ mid * (1 + crossCap)) :
    m ≤ walk_target_price Side.buy mid offset crossCap (some m) (some M) ∧
    walk_target_price Side.buy mid offset crossCap (some m) (some M) ≤ M
    := by
  have hM0 : M ≠ 0 := ne_of_gt (lt_of_lt_of_le hm hmM)
  simp only [walk_target_price, ne_eq, hM0, not_false_eq_true, true_and]
  split_ifs <;> constructor <;> linarith

/-- The walk's sell target price stays inside the band when the passive
and maximally-crossed prices both sit at or below the upper cap. -/
theorem walk_target_price_sell_mem (mid offset crossCap m M : ℚ)
    (hm : 0 < m) (hmM : m ≤ M)
    (h1 : mid * (1 + offset) ≤ M) (h2 : mid * (1 - crossCap) ≤ M) :
    m ≤ walk_target_price Side.sell mid offset crossCap (some m) (some M) ∧
    walk_target_price Side.sell mid offset crossCap (some m) (some M) ≤ M
    := by
  have hm0 : m ≠ 0 := ne_of_gt hm
  simp only [walk_target_price, ne_eq, hm0, not_false_eq_true, true_and]
  split_ifs <;> constructor <;> linarith

/-- A non-terminal attempt result leaves the walk result unchanged. -/
theorem walk_loop_cons_of_not_terminal (r : Option Order)
    (rest : List (Option Order)) (h : walkTerminal r = false) :
    walk_loop (r :: rest) = walk_loop rest := by
  cases r with
  | none => rfl
  | some o =>
    by_cases hs : o.status = "CANCELED_TIMEOUT_NOFILL"
    · simp [walk_loop, hs]
    · by_cases hr : o.status = "REJECTED"
      · simp [walkTerminal, hs, hr] at h
      · by_cases hq : (0 : ℚ) < o.executedQty
        · simp [walkTerminal, hs, hr, hq] at h
        · simp [walk_loop, hs, hr, hq]

/-- A terminal attempt result makes the walk return immediately,
independently of any later attempts. -/
theorem walk_loop_cons_of_terminal (r : Option Order)
    (rest rest' : List (Option Order)) (h : walkTerminal r = true) :
    walk_loop (r :: rest) = walk_loop (r :: rest') := by
  cases r with
  | none => simp [walkTerminal] at h
  | some o =>
    by_cases hs : o.status = "CANCELED_TIMEOUT_NOFILL"
    · simp [walkTerminal, hs] at h
    · by_cases hr : o.status = "REJECTED"
      · simp [walk_loop, hs, hr]
      · by_cases hq : (0 : ℚ) < o.executedQty
        · simp [walk_loop, hs, hr, hq]
        · simp [walkTerminal, hs, hr, hq] at h

/-- A non-terminal attempt result costs one attempt and the walk goes on. -/
theorem walk_attempts_used_cons_of_not_terminal (r : Option Order)
    (rest : List (Option Order)) (h : walkTerminal r = false) :
    walk_attempts_used (r :: rest) = 1 + walk_attempts_used rest := by
  simp [walk_attempts_used, h]

/-- A terminal attempt result ends the walk after that one attempt. -/
theorem walk_attempts_used_cons_of_terminal (r : Option Order)
    (rest : List (Option Order)) (h : walkTerminal r = true) :
    walk_attempts_used (r :: rest) = 1 := by
  simp [walk_attempts_used, h]

/-- C10: for every order intent whose quantity floors to zero (or below)
under the step size, the fixed-offset executor
`place_limit_order_with_timeout` returns `None` (hard failure) without
submitting anything; the walk executor `place_limit_order_walked`
performs no such guard — it proceeds to price and issue its first
attempt with the floored (zero) quantity. -/
theorem zero_quantity_guard (qty step : ℚ) (attempts : List (Option Order))
    (hstep : 0 < step) (h0 : 0 ≤ qty) (hlt : qty < step) :
    timeout_guarded_qty qty step = none ∧
    place_limit_order_walked qty step attempts = (0, walk_loop attempts) ∧
    (attempts ≠ [] → 1 ≤ walk_attempts_used attempts) := by
  have hq : quantize_order_qty qty step = 0 := by
    unfold quantize_order_qty
    rw [if_neg (ne_of_gt hstep)]
    rw [ratTrunc_eq_zero_of_lt_one _ (div_nonneg h0 hstep.le)
      (by rw [div_lt_one hstep]; exact hlt)]
    simp
  refine ⟨?_, ?_, ?_⟩
  · unfold timeout_guarded_qty
    rw [hq]
    simp
  · unfold place_limit_order_walked
    rw [hq]
  · intro hne
    cases attempts with
    | nil => exact absurd rfl hne
    | cons a as =>
      unfold walk_attempts_used
      split_ifs <;> omega

/-- Closed witness for `zero_quantity_guard`: an intent for 0.0007 of
base asset against a step of 0.001 aborts in the fixed-offset executor
but yields a first walk attempt of quantity 0. -/
theorem zero_quantity_guard_witness :
    timeout_guarded_qty (7/10000) (1/1000) = none ∧
    place_limit_order_walked (7/10000) (1/1000) [none] =
      (0, walk_loop [none]) := by
  have h := zero_quantity_guard (7/10000) (1/1000) [none]
    (by norm_num) (by norm_num) (by norm_num)
  exact ⟨h.1, h.2.1⟩

/-- C2 counterexample: with reference price 1000, zero offset, band
[20, 500] (mid 100, multiplier_down 0.2, multiplier_up 5) and tick 0.3,
the fixed-offset buy pipeline clamps the price to 500 and then rounds it
UP to the tick, submitting 500.1 — strictly above the band — so the
claim fails after tick rounding. -/
theorem price_clamp_counterexample :
    timeout_final_price Side.buy 1000 0 (some 20) (some 500) (3/10)
      = 5001/10 ∧
    ¬ (timeout_final_price Side.buy 1000 0 (some 20) (some 500) (3/10)
        ≤ 500) := by
  have h : timeout_final_price Side.buy 1000 0 (some 20) (some 500) (3/10)
      = 5001/10 := by
    have hc : (⌈(5000 : ℚ) / 3⌉ : ℤ) = 1667 := by
      rw [Int.ceil_eq_iff]
      constructor <;> norm_num
    norm_num [timeout_final_price, clamp_price, fmt_price_side, ratAway, hc]
  refine ⟨h, ?_⟩
  rw [h]
  norm_num

/-- C2 amended: for both executors and both sides, the price BEFORE tick
rounding is clamped into the percent-price band `[m, M]`; the submitted
price after side-aware tick rounding can leave the band by strictly less
than one tick — a buy submits in `[m, M + tick)`, a sell in
`(m − tick, M]`.  For the walk the stated hypotheses say the pre-cap
target does not already sit past the far cap, which the configured
sub-percent offsets against the wide percent-price band always satisfy.
-/
theorem price_clamp_within_one_tick (est offset mid crossCap m M tick : ℚ)
    (htick : 0 < tick) (hm : 0 < m) (hmM : m ≤ M) :
    (m ≤ clamp_price (est * (1 - offset)) (some m) (some M) ∧
     clamp_price (est * (1 - offset)) (some m) (some M) ≤ M) ∧
    (m ≤ timeout_final_price Side.buy est offset (some m) (some M) tick ∧
     timeout_final_price Side.buy est offset (some m) (some M) tick
       < M + tick) ∧
    (m - tick < timeout_final_price Side.sell est offset (some m) (some M)
        tick ∧
     timeout_final_price Side.sell est offset (some m) (some M) tick ≤ M) ∧
    (m ≤ mid * (1 - offset) → m ≤ mid * (1 + crossCap) →
      m ≤ walk_final_price Side.buy mid offset crossCap (some m) (some M)
            tick ∧
      walk_final_price Side.buy mid offset crossCap (some m) (some M) tick
        < M + tick) ∧
    (mid * (1 + offset) ≤ M → mid * (1 - crossCap) ≤ M →
      m - tick < walk_final_price Side.sell mid offset crossCap (some m)
          (some M) tick ∧
      walk_final_price Side.sell mid offset crossCap (some m) (some M) tick
        ≤ M) := by
  have key_buy : ∀ p, m ≤ p → p ≤ M →
      m ≤ fmt_price_side p tick Side.buy ∧
      fmt_price_side p tick Side.buy < M + tick := by
    intro p h1 h2
    obtain ⟨b1, b2⟩ := fmt_price_side_buy_bounds p tick htick (by linarith)
    exact ⟨by linarith, by linarith⟩
  have key_sell : ∀ p, m ≤ p → p ≤ M →
      m - tick < fmt_price_side p tick Side.sell ∧
      fmt_price_side p tick Side.sell ≤ M := by
    intro p h1 h2
    obtain ⟨b1, b2⟩ := fmt_price_side_sell_bounds p tick htick (by linarith)
    exact ⟨by linarith, by linarith⟩
  obtain ⟨cb1, cb2⟩ := clamp_price_mem (est * (1 - offset)) m M hm hmM
  obtain ⟨cs1, cs2⟩ := clamp_price_mem (est * (1 + offset)) m M hm hmM
  refine ⟨⟨cb1, cb2⟩, ?_, ?_, ?_, ?_⟩
  · have h := key_buy _ cb1 cb2
    simpa [timeout_final_price] using h
  · have h := key_sell _ cs1 cs2
    simpa [timeout_final_price] using h
  · intro w1 w2
    obtain ⟨t1, t2⟩ :=
      walk_target_price_buy_mem mid offset crossCap m M hm hmM w1 w2
    have h := key_buy _ t1 t2
    simpa [walk_final_price] using h
  · intro w1 w2
    obtain ⟨t1, t2⟩ :=
      walk_target_price_sell_mem mid offset crossCap m M hm hmM w1 w2
    have h := key_sell _ t1 t2
    simpa [walk_final_price] using h

/-- Closed witness for `price_clamp_within_one_tick` at a realistic
configuration (mid 100, default multipliers 0.2 / 5, tick 0.01, walk
start offset 0.001, cross cap 0.0002). -/
theorem price_clamp_within_one_tick_witness :
    20 ≤ timeout_final_price Side.buy 100 (1/1000) (some 20) (some 500)
        (1/100) ∧
    timeout_final_price Side.buy 100 (1/1000) (some 20) (some 500) (1/100)
      < 500 + 1/100 := by
  have h := price_clamp_within_one_tick 100 (1/1000) 100 (2/10000) 20 500
    (1/100) (by norm_num) (by norm_num) (by norm_num)
  exact h.2.1

/-- C5: the walk's linear interpolation with `max_attempts = 3`,
`start = 0.001`, `end = 0.0` yields exactly the offsets
`0.001, 0.0005, 0.0` for the three attempts; a terminal attempt (nonzero
executed quantity or explicit rejection) ends the walk immediately — the
result ignores all later attempts and exactly `i + 1` attempts are issued
when attempt `i + 1` (1-based) is the first terminal one; and a walk all
of whose attempts report zero execution and no rejection returns the
clean no-fill sentinel. -/
theorem walk_the_limit_spec :
    (walk_offset 3 (1/1000) 0 0 = 1/1000 ∧
     walk_offset 3 (1/1000) 0 1 = 1/2000 ∧
     walk_offset 3 (1/1000) 0 2 = 0) ∧
    (∀ (pre post : List (Option Order)) (r : Option Order),
      (∀ x ∈ pre, walkTerminal x = false) → walkTerminal r = true →
        walk_loop (pre ++ r :: post) = walk_loop (pre ++ [r]) ∧
        walk_attempts_used (pre ++ r :: post) = pre.length + 1) ∧
    (∀ l : List (Option Order),
      (∀ o : Order, some o ∈ l →
        o.status ≠ "REJECTED" ∧ o.executedQty ≤ 0) →
      walk_loop l = some nofillSentinel) := by
  refine ⟨⟨?_, ?_, ?_⟩, ?_, ?_⟩
  · norm_num [walk_offset]
  · norm_num [walk_offset]
  · norm_num [walk_offset]
  · intro pre post r hpre hr
    induction pre with
    | nil =>
      constructor
      · simpa using walk_loop_cons_of_terminal r post [] hr
      · simpa using walk_attempts_used_cons_of_terminal r post hr
    | cons a as ih =>
      have ha : walkTerminal a = false := hpre a (by simp)
      have has : ∀ x ∈ as, walkTerminal x = false := by
        intro x hx
        exact hpre x (by simp [hx])
      obtain ⟨ih1, ih2⟩ := ih has
      constructor
      · calc walk_loop (a :: as ++ r :: post)
            = walk_loop (as ++ r :: post) :=
              walk_loop_cons_of_not_terminal a _ ha
          _ = walk_loop (as ++ [r]) := ih1
          _ = walk_loop (a :: as ++ [r]) :=
              (walk_loop_cons_of_not_terminal a _ ha).symm
      · have := walk_attempts_used_cons_of_not_terminal a
          (as ++ r :: post) ha
        simp only [List.cons_append] at this ⊢
        rw [this, ih2]
        simp
        omega
  · intro l hl
    induction l with
    | nil => rfl
    | cons a as ih =>
      have has : ∀ o : Order, some o ∈ as →
          o.status ≠ "REJECTED" ∧ o.executedQty ≤ 0 := by
        intro o ho
        exact hl o (by simp [ho])
      have ha : walkTerminal a = false := by
        cases a with
        | none => rfl
        | some o =>
          obtain ⟨h1, h2⟩ := hl o (by simp)
          by_cases hs : o.status = "CANCELED_TIMEOUT_NOFILL"
          · simp [walkTerminal, hs]
          · simp [walkTerminal, hs, h1]
            linarith
      rw [walk_loop_cons_of_not_terminal a as ha]
      exact ih has

/-- Closed witness for `walk_the_limit_spec`: a filled second attempt ends
the walk with that order after exactly two attempts. -/
theorem walk_the_limit_spec_witness :
    walk_loop [none, some ⟨"FILLED", 2, 100, []⟩, none] =
        some ⟨"FILLED", 2, 100, []⟩ ∧
    walk_attempts_used [none, some ⟨"FILLED", 2, 100, []⟩, none] = 2 := by
  have hterm : walkTerminal (some ⟨"FILLED", 2, 100, []⟩) = true := by
    simp only [walkTerminal]
    rw [if_neg (by decide), if_neg (by decide)]
    simp only [decide_eq_true_eq]
    norm_num
  have h := walk_the_limit_spec.2.1 [none]
      [none] (some ⟨"FILLED", 2, 100, []⟩)
      (by intro x hx; simp at hx; subst hx; rfl) hterm
  obtain ⟨h1, h2⟩ := h
  refine ⟨?_, by simpa using h2⟩
  rw [show ([none, some (⟨"FILLED", 2, 100, []⟩ : Order), none] :
      List (Option Order)) = [none] ++ some ⟨"FILLED", 2, 100, []⟩ :: [none]
      from rfl, h1]
  show walk_loop [none, some ⟨"FILLED", 2, 100, []⟩] = _
  simp only [walk_loop]
  rw [if_neg (by decide), if_neg (by decide)]
  norm_num

/-- C9: a 4xx `ClientError` is raised immediately with a single attempt
and no backoff sleep; transient failures are retried up to the fixed
budget of three total attempts with the increasing backoff schedule
`delays = [1, 2, 4]` (so the sleeps actually performed are `[1]` after
one failure and `[1, 2]` after two); exhausting the budget raises the
final error. -/
theorem api_call_retry_policy (f : ℕ → CallOutcome) :
    api_call_delays = [1, 2, 4] ∧
    (∀ v, f 0 = CallOutcome.ok v → api_call f = (CallResult.ok v, 1, [])) ∧
    (is4xxClientError (f 0) = true →
      api_call f = (CallResult.raised (f 0), 1, [])) ∧
    (isTransientFailure (f 0) = true → is4xxClientError (f 1) = true →
      api_call f = (CallResult.raised (f 1), 2, [1])) ∧
    (∀ v, isTransientFailure (f 0) = true → f 1 = CallOutcome.ok v →
      api_call f = (CallResult.ok v, 2, [1])) ∧
    (isTransientFailure (f 0) = true → isTransientFailure (f 1) = true →
      (∀ v, f 2 ≠ CallOutcome.ok v) → is4xxClientError (f 2) = false →
      api_call f = (CallResult.raised (f 2), 3, [1, 2])) := by
  have hstep : ∀ i fuel, isTransientFailure (f i) = true →
      api_call_go f i (fuel + 2) =
        ((api_call_go f (i + 1) (fuel + 1)).1,
         (api_call_go f (i + 1) (fuel + 1)).2.1 + 1,
         api_call_delays.getD i 0 ::
           (api_call_go f (i + 1) (fuel + 1)).2.2) := by
    intro i fuel ht
    cases hfi : f i with
    | ok v => rw [hfi] at ht; simp [isTransientFailure] at ht
    | clientError s c =>
      rw [hfi] at ht
      simp only [isTransientFailure, Bool.not_eq_true'] at ht
      simp [api_call_go, hfi, ht]
    | otherError t =>
      rw [hfi] at ht
      simp only [isTransientFailure, Bool.not_eq_true'] at ht
      simp [api_call_go, hfi, ht]
  have h4xx : ∀ i fuel, is4xxClientError (f i) = true →
      api_call_go f i (fuel + 1) = (CallResult.raised (f i), 1, []) := by
    intro i fuel h4
    cases hfi : f i with
    | ok v => rw [hfi] at h4; simp [is4xxClientError] at h4
    | clientError s c =>
      rw [hfi] at h4
      simp [api_call_go, hfi, h4]
    | otherError t => rw [hfi] at h4; simp [is4xxClientError] at h4
  have hok : ∀ i fuel v, f i = CallOutcome.ok v →
      api_call_go f i (fuel + 1) = (CallResult.ok v, 1, []) := by
    intro i fuel v hv
    simp [api_call_go, hv]
  refine ⟨rfl, ?_, ?_, ?_, ?_, ?_⟩
  · intro v hv
    exact hok 0 2 v hv
  · intro h4
    exact h4xx 0 2 h4
  · intro ht0 h41
    rw [api_call, hstep 0 1 ht0, h4xx 1 1 h41]
    rfl
  · intro v ht0 hv1
    rw [api_call, hstep 0 1 ht0, hok 1 1 v hv1]
    rfl
  · intro ht0 ht1 hnotok h4f
    have hlast : api_call_go f 2 1 = (CallResult.raised (f 2), 1, []) := by
      cases hf2 : f 2 with
      | ok v => exact absurd hf2 (hnotok v)
      | clientError s c =>
        rw [hf2] at h4f
        simp [api_call_go, hf2, h4f]
      | otherError t =>
        simp [api_call_go, hf2, is4xxClientError]
    rw [api_call, hstep 0 1 ht0, hstep 1 0 ht1, hlast]
    rfl

/-- Closed witness for `api_call_retry_policy`: a permission error
(HTTP 403) on the first attempt is raised at once with no retry. -/
theorem api_call_retry_policy_witness :
    api_call (fun _ => CallOutcome.clientError (some 403) (-2010)) =
      (CallResult.raised (CallOutcome.clientError (some 403) (-2010)),
        1, []) := by
  have h := (api_call_retry_policy
      (fun _ => CallOutcome.clientError (some 403) (-2010))).2.2.1
  exact h (by norm_num [is4xxClientError])

/-- C1: both fill handlers of the candle main loop always apply the pot
update (with dust normalization), and the position flips exactly under
the stated conditions: a buy flips to `HOLDING_ETH` (the spec's
`HOLDING_BASE`) iff the executed quote value reaches `MIN_FILL_QUOTE`
and the executed quantity reaches one lot step; a sell flips to
`HOLDING_QUOTE` iff the executed quote value reaches `MIN_FILL_QUOTE`
and the residual base pot after the update is dust at the execution mid
price; in every other case the position value is unchanged. -/
theorem position_flip_rule (st : EngineState) (o : Order)
    (cp execMid step minNotional minFill now : ℚ) :
    ((apply_buy_fill st o cp step minFill now).pot_quote =
        (normalize_pots (buy_pot_update st o.cummulativeQuoteQty
          o.executedQty) step).pot_quote ∧
     (apply_buy_fill st o cp step minFill now).pot_eth =
        (normalize_pots (buy_pot_update st o.cummulativeQuoteQty
          o.executedQty) step).pot_eth) ∧
    (minFill ≤ o.cummulativeQuoteQty ∧ step ≤ o.executedQty →
      (apply_buy_fill st o cp step minFill now).position =
        Position.holdingEth) ∧
    (¬ (minFill ≤ o.cummulativeQuoteQty ∧ step ≤ o.executedQty) →
      (apply_buy_fill st o cp step minFill now).position = st.position) ∧
    ((apply_sell_fill st o cp execMid step minNotional minFill
        now).pot_quote =
        (normalize_pots (sell_pot_update st o cp) step).pot_quote ∧
     (apply_sell_fill st o cp execMid step minNotional minFill
        now).pot_eth =
        (normalize_pots (sell_pot_update st o cp) step).pot_eth) ∧
    (minFill ≤ o.cummulativeQuoteQty ∧
        sell_residual_is_dust
          (normalize_pots (sell_pot_update st o cp) step).pot_eth
          execMid minNotional →
      (apply_sell_fill st o cp execMid step minNotional minFill
        now).position = Position.holdingQuote) ∧
    (¬ (minFill ≤ o.cummulativeQuoteQty ∧
        sell_residual_is_dust
          (normalize_pots (sell_pot_update st o cp) step).pot_eth
          execMid minNotional) →
      (apply_sell_fill st o cp execMid step minNotional minFill
        now).position = st.position) := by
  refine ⟨⟨?_, ?_⟩, ?_, ?_, ⟨?_, ?_⟩, ?_, ?_⟩
  · simp only [apply_buy_fill]
    split_ifs <;> rfl
  · simp only [apply_buy_fill]
    split_ifs <;> rfl
  · intro h
    simp only [apply_buy_fill]
    rw [if_pos h]
  · intro h
    simp only [apply_buy_fill]
    rw [if_neg h]
    rfl
  · simp only [apply_sell_fill]
    split_ifs <;> rfl
  · simp only [apply_sell_fill]
    split_ifs <;> rfl
  · intro h
    simp only [apply_sell_fill]
    rw [if_pos h]
  · intro h
    simp only [apply_sell_fill]
    rw [if_neg h]
    rfl

/-- Closed witness for `position_flip_rule`: a full buy fill of quote
value 99 (above the 5 threshold) and quantity 0.05 (above one 0.001
step) flips the position to `HOLDING_ETH`. -/
theorem position_flip_rule_witness :
    (apply_buy_fill ⟨Position.holdingQuote, 0, 2000, 100, 0, 0, 0, 0⟩
        ⟨"FILLED", 5/100, 99, [(5/100, 1980)]⟩
        1980 (1/1000) 5 12345).position = Position.holdingEth := by
  have h := position_flip_rule
    ⟨Position.holdingQuote, 0, 2000, 100, 0, 0, 0, 0⟩
    ⟨"FILLED", 5/100, 99, [(5/100, 1980)]⟩ 1980 1985 (1/1000) 5 5 12345
  exact h.2.1 (by norm_num)

/-- C3 counterexample: in `bot.py` a clean timeout — cancel succeeded,
zero executed quantity — returns `None`, which the main loop appends to
the error window; it is moreover the very same value a failed
(ambiguous) cancel produces, so it is not reported distinctly from a
hard failure. -/
theorem clean_timeout_counterexample :
    legacy_timeout_result true ⟨"CANCELED", 0, 0, []⟩ = none ∧
    legacy_appends_error
      (legacy_timeout_result true ⟨"CANCELED", 0, 0, []⟩) = true ∧
    legacy_timeout_result true ⟨"CANCELED", 0, 0, []⟩ =
      legacy_timeout_result false ⟨"CANCELED", 0, 0, []⟩ := by
  refine ⟨?_, ?_, ?_⟩ <;>
    norm_num [legacy_timeout_result, legacy_appends_error]

/-- C3 amended: in the candle engine (`bot_candle.py`) a zero-execution
timeout is reported as the `CANCELED_TIMEOUT_NOFILL` sentinel, passes
through `execute_limit` unchanged, is not appended to the error window,
and is a value distinct from the hard-failure `None`; in the legacy
engine (`bot.py`) the same situation returns `None` and the main loop
appends it to the error window exactly like a hard failure. -/
theorem clean_timeout_classification (final : Order)
    (h : final.executedQty = 0) :
    candle_timeout_result true final = some nofillSentinel ∧
    execute_limit_classify (candle_timeout_result true final) =
      some nofillSentinel ∧
    candle_sell_appends_error (candle_timeout_result true final) = false ∧
    candle_timeout_result true final ≠ none ∧
    legacy_timeout_result true final = none ∧
    legacy_appends_error (legacy_timeout_result true final) = true := by
  have hq : ¬ (0 : ℚ) < final.executedQty := by
    rw [h]
    exact lt_irrefl 0
  have hc : candle_timeout_result true final = some nofillSentinel := by
    simp [candle_timeout_result, hq]
  have hl : legacy_timeout_result true final = none := by
    simp [legacy_timeout_result, hq]
  refine ⟨hc, ?_, ?_, ?_, hl, ?_⟩
  · rw [hc]
    simp [execute_limit_classify, nofillSentinel]
  · rw [hc]
    rfl
  · rw [hc]
    simp
  · rw [hl]
    rfl

/-- Closed witness for `clean_timeout_classification` at a concrete
zero-fill canceled order. -/
theorem clean_timeout_classification_witness :
    candle_timeout_result true ⟨"CANCELED", 0, 0, []⟩ =
      some nofillSentinel ∧
    legacy_appends_error
      (legacy_timeout_result true ⟨"CANCELED", 0, 0, []⟩) = true := by
  have h := clean_timeout_classification ⟨"CANCELED", 0, 0, []⟩ rfl
  exact ⟨h.1, h.2.2.2.2.2⟩

/-- C6 counterexample: a triggered reserve sell attempt that ends in a
clean timeout leaves a nonzero high watermark in place — the watermark
is not reset to zero after every sell attempt. -/
theorem reserve_watermark_counterexample :
    (reserve_after_sell_attempt ⟨100, 0⟩ 50
        ReserveSellOutcome.cleanTimeout).reserve_high_watermark_quote
      = 100 ∧
    (reserve_after_sell_attempt ⟨100, 0⟩ 50
        ReserveSellOutcome.cleanTimeout).reserve_high_watermark_quote
      ≠ 0 := by
  refine ⟨rfl, ?_⟩
  norm_num [reserve_after_sell_attempt]

/-- C6 amended: `reserve_high_watermark_quote` is reset to zero after a
SUCCESSFUL (executed) reserve sell; after a clean timeout or a hard
failure the watermark is unchanged and only
`reserve_last_action_ts` is set to the current time, so immediate
re-triggering is suppressed by the reserve cooldown rather than by a
watermark reset. -/
theorem reserve_watermark_after_attempt (st : ReserveState)
    (now cummQuote execQty : ℚ) :
    (reserve_after_sell_attempt st now
        (ReserveSellOutcome.executed cummQuote
          execQty)).reserve_high_watermark_quote = 0 ∧
    (reserve_after_sell_attempt st now
        (ReserveSellOutcome.executed cummQuote
          execQty)).reserve_last_action_ts = now ∧
    reserve_after_sell_attempt st now ReserveSellOutcome.cleanTimeout =
      { st with reserve_last_action_ts := now } ∧
    reserve_after_sell_attempt st now ReserveSellOutcome.hardFail =
      { st with reserve_last_action_ts := now } :=
  ⟨rfl, rfl, rfl, rfl⟩

/-- C7: in the candle engine, whenever the trend window is warm and the
current price sits more than `MAX_UNDER_SMA_PCT` below the SMA, the
falling-knife guard prevents any buy order that cycle — whether or not
the dip trigger fired. -/
theorem falling_knife_blocks_buy (cfg : BuyConfig) (c : BuyCycle)
    (hwarm : cfg.trend.trend_min_samples ≤ c.price_history.length)
    (hknife : c.current_price <
      c.current_sma * (1 - cfg.max_under_sma_pct)) :
    candle_buy_order_placed cfg c = false := by
  have hk : is_falling_knife cfg c := And.intro hwarm hknife
  simp only [candle_buy_order_placed]
  split_ifs <;> first | rfl | exact absurd hk (by assumption)

/-- Closed witness for `falling_knife_blocks_buy`: warm window (2 of 2
samples), price 1910 more than 3 % below the SMA 2000 — no buy. -/
theorem falling_knife_blocks_buy_witness :
    candle_buy_order_placed
      ⟨"BLEND", 7/10, 1/100, 3/100, ⟨"REVERSAL", "BOUNCE3", 3, 2, 0⟩⟩
      ⟨100, 2000, [1900, 1910], 1910, 2000, 1900, 2000, 0, 10, 1909,
        1910, 1/1000, 5, 10⟩ = false := by
  exact falling_knife_blocks_buy _ _ (by simp) (by norm_num)

/-- C4: on every `check_errors` call, entries older than the error window
are pruned from `error_timestamps`, and the process is fatally stopped iff
the count remaining after pruning is at least `ERROR_LIMIT`; with
`ERROR_LIMIT = 5` and a 600 s window, five failures inside 600 s stop the
process while four in-window failures plus one already-expired entry do
not. -/
theorem check_errors_circuit_breaker (now window : ℚ) (limit : ℕ)
    (ts : List ℚ) :
    (∀ t ∈ ts, window < now - t → t ∉ check_errors_prune now window ts) ∧
    (check_errors_fatal now window limit ts = true ↔
      limit ≤ (check_errors_prune now window ts).length) ∧
    check_errors_fatal 1000 600 5 [500, 600, 700, 800, 900] = true ∧
    check_errors_fatal 1000 600 5 [399, 700, 800, 900, 950] = false := by
  refine ⟨?_, ?_,
    by norm_num [check_errors_fatal, check_errors_prune, List.filter],
    by norm_num [check_errors_fatal, check_errors_prune, List.filter]⟩
  · intro t ht hold hmem
    have := List.of_mem_filter hmem
    have hlt : now - t < window := by simpa using this
    linarith
  · simp [check_errors_fatal]

/-- Closed witness for `check_errors_circuit_breaker`. -/
theorem check_errors_circuit_breaker_witness :
    700 ∉ check_errors_prune 1400 600 [700, 900] := by
  have h := (check_errors_circuit_breaker 1400 600 5 [700, 900]).1
  exact h 700 (by decide) (by norm_num)

/-- C8: a control-loop pass whose operator-timezone date differs from the
stored `day_key` zeroes `trade_count` and `daily_loss_quote`, advances
`day_key` to the current date and persists; a pass with an equal date
changes nothing and does not persist, so the reset happens exactly once per
new day (a second pass on the same date after a reset is a no-op). -/
theorem daily_reset_exactly_once (now_date : String) (st : DailyState) :
    (now_date ≠ st.day_key →
      check_daily_reset now_date st = (⟨0, 0, now_date⟩, true)) ∧
    (now_date = st.day_key → check_daily_reset now_date st = (st, false)) ∧
    check_daily_reset now_date (check_daily_reset now_date st).1 =
      ((check_daily_reset now_date st).1, false) := by
  refine ⟨?_, ?_, ?_⟩
  · intro h
    simp [check_daily_reset, h]
  · intro h
    simp [check_daily_reset, h]
  · by_cases h : now_date = st.day_key
    · simp [check_daily_reset, h]
    · simp [check_daily_reset, h]

/-- Closed witness for `daily_reset_exactly_once` at the spec's example:
day key `2024-01-01`, current date `2024-01-02`. -/
theorem daily_reset_exactly_once_witness :
    check_daily_reset "2024-01-02" ⟨3, 7, "2024-01-01"⟩ =
      (⟨0, 0, "2024-01-02"⟩, true) := by
  have h := (daily_reset_exactly_once "2024-01-02" ⟨3, 7, "2024-01-01"⟩)
  exact h.1 (by decide)

end MyAIBot
